import Mathlib

/-!
Verification development for the `ul_rag_assistant` retrieval-and-orchestration
pipeline.  The Python sources are embedded shallowly:

* Python `float` scores are modelled as exact rationals (`ℚ`).  All rational
  arithmetic inside executable definitions goes through `mkRat`-based helpers
  (`qadd`) so that concrete runs reduce inside the kernel; the lemma
  `qadd_eq` identifies them with ordinary field operations.
* Python's stable `sorted(..., reverse=True)` is modelled by a structurally
  recursive stable insertion sort (`sortDesc`): an element is placed before
  the first already-sorted element whose key is `≤` its own, which is exactly
  the unique order that is descending on keys and stable on ties.
* External collaborators (sentence embedding model, BM25 scores, the
  cross-encoder, the OpenAI chat completion service, `json.loads`) are
  parameters of the embedded functions, mirroring §6 of the specification.
* Python dictionaries with a known key set become structures; `dict`
  insertion-order semantics of `ranks[idx] = ranks.get(idx, 0.0) + c` is
  modelled by an association list updated in place / appended at the end.
-/

namespace ULRag

/-- Python whitespace characters recognised by `str.strip` / `str.split`. -/
def isPyWs (c : Char) : Bool :=
  c = ' ' || c = '\t' || c = '\n' || c = '\r' || c = '\x0b' || c = '\x0c'

/-- Python `str.lstrip()`. -/
def pyLStrip (s : String) : String :=
  ⟨s.toList.dropWhile isPyWs⟩

/-- Python `str.strip()`. -/
def pyStrip (s : String) : String :=
  ⟨((s.toList.dropWhile isPyWs).reverse.dropWhile isPyWs).reverse⟩

/-- `pre` is a leading segment of `l` (helper for Python's `in` on strings). -/
def charsBegin : List Char → List Char → Bool
  | [], _ => true
  | _ :: _, [] => false
  | a :: as, b :: bs => a == b && charsBegin as bs

/-- `n` occurs contiguously inside `h` (helper for Python's `in` on strings). -/
def charsWithin (n : List Char) : List Char → Bool
  | [] => n.isEmpty
  | h@(_ :: hs) => charsBegin n h || charsWithin n hs

/-- Python's substring test `needle in hay`. -/
def pyIn (needle hay : String) : Bool :=
  charsWithin needle.toList hay.toList

/-- ASCII lower-casing of one character (kernel-reducible). -/
def pyCharLower (c : Char) : Char :=
  if 65 ≤ c.toNat ∧ c.toNat ≤ 90 then Char.ofNat (c.toNat + 32) else c

/-- Python `str.lower()` on the ASCII strings this code base handles. -/
def pyLower (s : String) : String :=
  ⟨s.toList.map pyCharLower⟩

/-- Python `a or b` on two optional strings (`None` and `""` are falsy). -/
def pyOr (a b : Option String) : Option String :=
  match a with
  | some s => if s = "" then b else some s
  | none => b

/-- Python `a or d` where `d` is a (truthy or not) default string. -/
def pyStrOr (a : Option String) (d : String) : String :=
  match a with
  | some s => if s = "" then d else s
  | none => d

/-- Rational addition through `mkRat`, so that concrete values reduce in the
kernel (`Rat.add` is `@[irreducible]`).  `qadd_eq` shows it is `+`. -/
def qadd (a b : ℚ) : ℚ :=
  mkRat (a.num * (b.den : ℤ) + b.num * (a.den : ℤ)) (a.den * b.den)

/-- Stable insertion into a list already sorted descending by `key`:
the new element goes before the first element whose key is `≤` its own. -/
def insDesc (key : α → ℚ) (x : α) : List α → List α
  | [] => [x]
  | y :: l => if key y ≤ key x then x :: y :: l else y :: insDesc key x l

/-- Stable descending sort by `key`; models Python's stable
`sorted(l, key=key, reverse=True)`. -/
def sortDesc (key : α → ℚ) : List α → List α
  | [] => []
  | x :: l => insDesc key x (sortDesc key l)

/-! ## Chunk metadata (`metas` entries of the pickled index)

`ul_rag/retrieval/rerank.py` reads the keys `source_host`, `host`,
`source_url`, `path`; `ul_rag/llm/generate.py` additionally reads `source`
and `url`.  A missing key (`dict.get` returning `None`) is `none`. -/

structure DocMeta where
  source_host : Option String
  host : Option String
  source_url : Option String
  path : Option String
  source : Option String
  url : Option String
deriving DecidableEq

def emptyMeta : DocMeta := ⟨none, none, none, none, none, none⟩

namespace Reranker

/-- `(meta.get("source_host") or meta.get("host") or "").lower()`
(rerank.py line 41). -/
def hostStr (m : DocMeta) : String :=
  pyLower ((pyOr m.source_host m.host).getD "")

/-- `(meta.get("source_url") or meta.get("path") or "").lower()`
(rerank.py line 42). -/
def urlStr (m : DocMeta) : String :=
  pyLower ((pyOr m.source_url m.path).getD "")

/-- `domain_hint.lower() in host or domain_hint.lower() in url`
(rerank.py line 43). -/
def domainMatch (h : String) (m : DocMeta) : Bool :=
  pyIn (pyLower h) (hostStr m) || pyIn (pyLower h) (urlStr m)

/-- `Reranker.rerank` (rerank.py lines 21-48).  The cross-encoder
`self.model.predict` is the external parameter `cross`; `scores[i]` is
`cross query docs[i].1`.  `if domain_hint:` is Python truthiness: `None`
and `""` skip the bias. -/
def rerank (cross : String → String → ℚ) (query : String)
    (docs : List (String × DocMeta)) (domain_hint : Option String)
    (bias : ℚ) : List (ℚ × String × DocMeta) :=
  if docs.isEmpty then []
  else
    let scored := docs.map (fun d =>
      let s := cross query d.1
      let s_adj :=
        match domain_hint with
        | some h => if h ≠ "" then (if domainMatch h d.2 then qadd s bias else s) else s
        | none => s
      (s_adj, d.1, d.2))
    sortDesc (fun t => t.1) scored

/-- The default of the `bias` parameter, `0.2` (rerank.py line 26), written
in kernel-reducible form; `rerankBias_eq` (below) identifies it with `0.2`. -/
def rerankBias : ℚ := mkRat 1 5

end Reranker

namespace Retriever

/-- The in-memory corpus (`IndexedCorpus`, retriever.py lines 20-25).  The
`embeddings` matrix and the fitted `bm25` object only feed the external
searches, which are parameters of `retrieve`; the chunk `texts` and `metas`
arrays are carried explicitly. -/
structure IndexedCorpus where
  texts : List String
  metas : List DocMeta

/-- `ranks[idx] = ranks.get(idx, 0.0) + c` on an insertion-ordered `dict`
modelled as an association list: an existing key is updated in place, a new
key is appended at the end (retriever.py lines 94-98). -/
def rrfInsert : List (ℕ × ℚ) → ℕ → ℚ → List (ℕ × ℚ)
  | [], idx, c => [(idx, c)]
  | (j, v) :: rest, idx, c =>
    if j = idx then (j, qadd v c) :: rest else (j, v) :: rrfInsert rest idx c

/-- One `for rank, (idx, _) in enumerate(l)` loop of `_rrf_fuse`:
`enumerate` counts from `r = 0`, and each entry contributes
`1.0 / (k_rrf + rank)` (retriever.py lines 95-98). -/
def rrfAdd (k : ℕ) : ℕ → List (ℕ × ℚ) → List (ℕ × ℚ) → List (ℕ × ℚ)
  | _, acc, [] => acc
  | r, acc, (idx, _) :: rest => rrfAdd k (r + 1) (rrfInsert acc idx (mkRat 1 (k + r))) rest

/-- `Retriever._rrf_fuse` (retriever.py lines 84-101): accumulate reciprocal
rank contributions from the dense then the sparse list, then
`sorted(ranks.items(), key=lambda x: x[1], reverse=True)` (a stable
descending sort) and keep the indices. -/
def rrf_fuse (dense sparse : List (ℕ × ℚ)) (k_rrf : ℕ) : List ℕ :=
  let ranks := rrfAdd k_rrf 0 (rrfAdd k_rrf 0 [] dense) sparse
  (sortDesc (fun p => p.2) ranks).map Prod.fst

/-- A retrieved document dict (retriever.py lines 139-147). -/
structure RetrievedDoc where
  text : String
  meta : DocMeta
  score : ℚ
  rank : ℕ
deriving DecidableEq

/-- `Retriever.retrieve` (retriever.py lines 103-149).  The external dense
and sparse searches (`_dense_search` / `_sparse_search`, which consult the
embedding model and the BM25 object) are the parameters `denseFn` and
`sparseFn`; the cross-encoder inside the reranker is `cross`.

Faithful to the source, the reranker is called WITHOUT the `domain_hint`
argument: line 134 of retriever.py comments it out, so `rerank` runs with
its default `domain_hint=None` and default `bias=0.2`; the `domain_hint`
parameter of `retrieve` is accepted but unused. -/
def retrieve (corpus : IndexedCorpus)
    (denseFn sparseFn : String → ℕ → List (ℕ × ℚ))
    (cross : String → String → ℚ)
    (query : String) (max_chunks : ℕ) (domain_hint : Option String) :
    List RetrievedDoc :=
  if pyStrip query = "" then []
  else
    let k_candidates := max_chunks * 8
    let dense := denseFn query k_candidates
    let sparse := sparseFn query k_candidates
    let fused_idx := (rrf_fuse dense sparse 60).take k_candidates
    let candidates := fused_idx.map (fun idx =>
      ((corpus.texts.get? idx).getD "", (corpus.metas.get? idx).getD emptyMeta))
    let reranked := Reranker.rerank cross query candidates none Reranker.rerankBias
    let top := reranked.take max_chunks
    top.enum.map (fun p => ⟨p.2.2.1, p.2.2.2, p.2.1, p.1 + 1⟩)

end Retriever

/-! ## Router (`ul_rag/graph/router.py`)

The OpenAI chat-completion call and Python's `json.loads` are external
collaborators; both are parameters.  JSON values returned by `json.loads`
are modelled by `JVal` (JSON numbers as exact rationals). -/

inductive JVal where
  | jnull : JVal
  | jbool : Bool → JVal
  | jnum : ℚ → JVal
  | jstr : String → JVal
  | jlist : List JVal → JVal
  | jdict : List (String × JVal) → JVal

/-- Python truthiness `bool(v)` of a JSON value. -/
def pyTruthy : JVal → Bool
  | .jnull => false
  | .jbool b => b
  | .jnum v => !(decide (v = 0))
  | .jstr s => !(decide (s = ""))
  | .jlist l => !l.isEmpty
  | .jdict d => !d.isEmpty

/-- Decimal digit-string value, for Python `int(str)`. -/
def digitsVal (cs : List Char) : Option ℕ :=
  if cs.isEmpty then none
  else if cs.all (fun c => c.isDigit) then
    some (cs.foldl (fun a c => a * 10 + (c.toNat - 48)) 0)
  else none

/-- Python `int(s)` on a string: strip whitespace, optional sign, decimal
digits; anything else raises (`none`). -/
def pyIntOfStr (s : String) : Option ℤ :=
  match (pyStrip s).toList with
  | '+' :: rest => (digitsVal rest).map (fun n => (n : ℤ))
  | '-' :: rest => (digitsVal rest).map (fun n => -(n : ℤ))
  | t => (digitsVal t).map (fun n => (n : ℤ))

/-- Python `int(float)` truncates toward zero. -/
def ratTrunc (q : ℚ) : ℤ :=
  q.num.tdiv (q.den : ℤ)

/-- Python `int(v)` on a JSON value: bools and numbers coerce, numeric
strings parse, everything else (`None`, lists, dicts) raises (`none`). -/
def pyToInt : JVal → Option ℤ
  | .jbool b => some (if b then 1 else 0)
  | .jnum v => some (ratTrunc v)
  | .jstr s => pyIntOfStr s
  | _ => none

/-- `data.get(key)` on a parsed JSON object. -/
def jGet (data : List (String × JVal)) (key : String) : Option JVal :=
  (data.find? (fun p => p.1 = key)).map Prod.snd

/-- First index of character `c` (Python `str.find`, `none` for `-1`). -/
def listIdx (c : Char) : List Char → Option ℕ
  | [] => none
  | a :: rest => if a = c then some 0 else (listIdx c rest).map (· + 1)

/-- Last index of character `c` (Python `str.rfind`, `none` for `-1`). -/
def listLastIdx (c : Char) (l : List Char) : Option ℕ :=
  (listIdx c l.reverse).map (fun i => l.length - 1 - i)

/-- Python slice `s[a:b]`. -/
def strSlice (s : String) (a b : ℕ) : String :=
  ⟨(s.toList.drop a).take (b - a)⟩

namespace Router

/-- `QueryPlan` (router.py lines 28-35).  `query_type` and `retrieval_mode`
are `Literal` strings in the source and are modelled as strings, which lets
closed-set membership be stated. -/
structure QueryPlan where
  query_type : String
  topic : String
  needs_multi_hop : Bool
  retrieval_mode : String
  max_chunks : ℤ
  domain_hint : Option String
deriving DecidableEq

/-- The closed `query_type` set (router.py lines 14-23 and 103-112). -/
def allowedTypes : List String :=
  ["who_is", "programme_or_module", "campus_directions", "admin_process",
   "research", "general", "chitchat", "nonsense"]

/-- `Router._default_plan` (router.py lines 47-63). -/
def default_plan (question : String) : QueryPlan :=
  let q_lower := pyLower question
  let topic :=
    if pyIn "lero" q_lower then "lero"
    else if pyIn "csis" q_lower then "csis"
    else if pyIn "accommodation" q_lower then "accommodation"
    else ""
  ⟨"general", topic, false, "hybrid", 6, none⟩

/-- The field extraction of `Router._parse_json` once `data` is a parsed
JSON object (router.py lines 103-141). -/
def planFromData (data : List (String × JVal)) : QueryPlan :=
  let qt :=
    match (jGet data "query_type").getD (.jstr "general") with
    | .jstr s => if s ∈ allowedTypes then s else "general"
    | _ => "general"
  let rm_raw := (jGet data "retrieval_mode").getD (.jstr "hybrid")
  let rm_def := if pyTruthy rm_raw then rm_raw else .jstr "hybrid"
  let rm :=
    match rm_def with
    | .jstr s =>
      if s = "hybrid" ∨ s = "dense_only" ∨ s = "sparse_only" then s else "hybrid"
    | _ => "hybrid"
  let topic :=
    match (jGet data "topic").getD (.jstr "") with
    | .jstr s => s
    | _ => ""
  let needs_multi_hop := pyTruthy ((jGet data "needs_multi_hop").getD (.jbool false))
  let max_chunks_int := (pyToInt ((jGet data "max_chunks").getD (.jnum 6))).getD 6
  let domain_hint :=
    match (jGet data "domain_hint").getD .jnull with
    | .jstr s => if s = "" then none else some s
    | _ => none
  ⟨qt, topic, needs_multi_hop, rm, max_chunks_int, domain_hint⟩

/-- `Router._parse_json` (router.py lines 90-141): empty output raises;
try `json.loads` on the whole string, else scan for the outermost
`\x7b...\x7d` span and parse that; `data.get(...)` on a non-dict raises
(all raises are `none`, caught by `route`). -/
def parse_json (jsonLoads : String → Option JVal) (content : String) :
    Option QueryPlan :=
  let raw := pyStrip content
  if raw = "" then none
  else
    let dataOpt :=
      match jsonLoads raw with
      | some v => some v
      | none =>
        match listIdx '\x7b' raw.toList, listLastIdx '\x7d' raw.toList with
        | some st, some en =>
          if en ≤ st then none else jsonLoads (strSlice raw st (en + 1))
        | _, _ => none
    match dataOpt with
    | some (JVal.jdict data) => some (planFromData data)
    | _ => none

/-- The deterministic post-processing at the end of `Router.route`
(router.py lines 169-173). -/
def routePost (p : QueryPlan) : QueryPlan :=
  if p.query_type = "who_is" ∧ p.domain_hint = none then
    { p with domain_hint := some "pure.ul.ie" }
  else if p.query_type = "campus_directions" ∧ p.domain_hint = none then
    { p with domain_hint := some "ul.ie" }
  else p

/-- `Router.route` (router.py lines 143-175).  `clientConfigured` is
whether an API key was present (`self.client is not None`); `llmResp` is
the completion call: `none` = the call raised, `some c` = it returned with
`message.content = c` (`c = none` models Python `None`, turned into `""`
by `content or ""`).  Both the missing-client and the raised-call paths
return the default plan immediately (no post-processing); a parse failure
falls back to the default plan and then post-processes. -/
def route (clientConfigured : Bool) (llmResp : Option (Option String))
    (jsonLoads : String → Option JVal) (question : String) : QueryPlan :=
  match clientConfigured, llmResp with
  | false, _ => default_plan question
  | true, none => default_plan question
  | true, some contentOpt =>
    let content := contentOpt.getD ""
    let plan := (parse_json jsonLoads content).getD (default_plan question)
    routePost plan

end Router

/-! ## Safety gate (`ul_rag/graph/safety.py`) -/

namespace Safety

structure SafetyResult where
  escalate : Bool
  reason : Option String
deriving DecidableEq

/-- The fixed crisis phrase list (safety.py line 22). -/
def crisisKeywords : List String :=
  ["suicide", "kill myself", "self-harm", "end my life"]

/-- `Safety.check_escalation` (safety.py lines 20-25). -/
def check_escalation (text : String) : SafetyResult :=
  let lowered := pyLower text
  if crisisKeywords.any (fun k => pyIn k lowered) then ⟨true, some "crisis"⟩
  else ⟨false, none⟩

/-- `Safety.escalation_message` (safety.py lines 27-31); the `locale`
parameter is accepted but does not vary the message. -/
def escalation_message (locale : String) : String :=
  "I\x27m really sorry you\x27re feeling this way. I\x27m not able to provide the help you deserve. " ++
  "If you are at risk / suicidal please immediately contact either the crisis liaison mental health team at the University Hospital Limerick (061 301111) or your local hospital, or your GP immediately. ."

end Safety

/-! ## Orchestration pipeline (`ul_rag/graph/graph.py`)

The module-level `retriever`, `generator` and `router` singletons perform
external calls, so the node functions are parametrised by the functions
those singletons provide.  The heterogeneous `meta` dict values that the
nodes store are captured by `StageMeta`. -/

namespace Graph

structure Citation where
  n : ℕ
  source : String
deriving DecidableEq

/-- The `meta` values stored by the graph nodes: `{}` initially,
`{"escalation": reason}` (safety), `{"intent": ...}` (chitchat/nonsense),
`{"ctx": 0}` (no docs), `{"model": ...}` (generator response). -/
inductive StageMeta where
  | empty : StageMeta
  | escalation : Option String → StageMeta
  | intentTag : String → StageMeta
  | ctxZero : StageMeta
  | genModel : Option String → StageMeta
deriving DecidableEq

/-- The `ULState` TypedDict (graph.py lines 28-36). -/
structure ULState where
  question : String
  mode : String
  locale : String
  plan : Option Router.QueryPlan
  docs : List Retriever.RetrievedDoc
  answer : Option String
  citations : List Citation
  meta : StageMeta
deriving DecidableEq

/-- `safety_node` (graph.py lines 39-49). -/
def safety_node (s : ULState) : ULState :=
  let esc := Safety.check_escalation s.question
  if esc.escalate then
    { s with answer := some (Safety.escalation_message s.locale),
             citations := [],
             meta := .escalation esc.reason }
  else s

/-- `route_node` (graph.py lines 52-64); `router.route` is the parameter
`routeFn`.  It runs unconditionally — it does not look at `answer`. -/
def route_node (routeFn : String → Router.QueryPlan) (s : ULState) : ULState :=
  { s with plan := some (routeFn s.question) }

/-- `retrieve_node` (graph.py lines 67-82); `retriever.retrieve` is the
parameter `retrieveFn`.  With a typed plan record, the per-key defaults of
lines 69-76 collapse to: plan present → its fields, plan `None` → the
default record.  It runs unconditionally — it does not look at `answer`. -/
def retrieve_node
    (retrieveFn : String → ℤ → Option String → List Retriever.RetrievedDoc)
    (s : ULState) : ULState :=
  let qp : Router.QueryPlan :=
    match s.plan with
    | some p => p
    | none => ⟨"general", "ul", false, "hybrid", 10, none⟩
  if qp.query_type = "chitchat" ∨ qp.query_type = "nonsense" then
    { s with docs := [] }
  else
    { s with docs := retrieveFn s.question qp.max_chunks qp.domain_hint }

/-- What `generator.answer` returns, as consumed by `generate_node`. -/
structure GenResp where
  answer : Option String
  citations : List Citation
  meta : StageMeta
deriving DecidableEq

/-- The fixed "no documents" answer of `generate_node`
(graph.py lines 117-121). -/
def graphNoDocsMsg : String :=
  "Sorry, I couldn\x27t find any University of Limerick documents clearly " ++
  "related to that question. Try rephrasing it, or check the official UL " ++
  "website or department directly."

/-- `generate_node` (graph.py lines 85-139); the generator's three entry
points are the parameters.  A pre-set non-`None` `answer` short-circuits. -/
def generate_node (chitchatFn nonsenseFn : String → String → String → String)
    (answerFn : String → List Retriever.RetrievedDoc → String → String → GenResp)
    (s : ULState) : ULState :=
  if s.answer ≠ none then s
  else
    let query_type :=
      match s.plan with
      | some p => p.query_type
      | none => "general"
    if query_type = "chitchat" then
      { s with answer := some (chitchatFn s.question s.mode s.locale),
               citations := [], meta := .intentTag "chitchat" }
    else if query_type = "nonsense" then
      { s with answer := some (nonsenseFn s.question s.mode s.locale),
               citations := [], meta := .intentTag "nonsense" }
    else if s.docs.isEmpty then
      { s with answer := some graphNoDocsMsg, citations := [], meta := .ctxZero }
    else
      let resp := answerFn s.question s.docs s.mode s.locale
      { s with answer := resp.answer, citations := resp.citations, meta := resp.meta }

/-- The initial state of `run_ul_rag` (graph.py lines 161-170). -/
def initState (question mode locale : String) : ULState :=
  ⟨question, mode, locale, none, [], none, [], .empty⟩

/-- `run_ul_rag` / the compiled linear graph (graph.py lines 142-178):
Safety → Route → Retrieve → Generate. -/
def run_ul_rag (routeFn : String → Router.QueryPlan)
    (retrieveFn : String → ℤ → Option String → List Retriever.RetrievedDoc)
    (chitchatFn nonsenseFn : String → String → String → String)
    (answerFn : String → List Retriever.RetrievedDoc → String → String → GenResp)
    (question mode locale : String) : ULState :=
  generate_node chitchatFn nonsenseFn answerFn
    (retrieve_node retrieveFn
      (route_node routeFn
        (safety_node (initState question mode locale))))

end Graph

/-! ## Generator (`ul_rag/llm/generate.py`)

The OpenAI chat call is the parameter `client`: `none` models a missing
API key, `some call` a configured client with `call system user = none`
modelling a raised call and `some c` a response whose `message.content`
is `c` (possibly Python `None`).  The pair's second component counts how
many times the model service was invoked. -/

namespace Generator

/-- A heterogeneous context item (`_extract_text_and_meta`, generate.py
lines 174-215): dict-like with optional `text` / `page_content` and
optional `meta` / `metadata` sub-dicts (`none` also stands for a non-dict
value, which the source collapses to `\x7b\x7d`). -/
structure CtxItem where
  text : Option String
  page_content : Option String
  meta : Option DocMeta
  metadata : Option DocMeta
deriving DecidableEq

/-- Split on runs of whitespace, dropping empties (Python `str.split()`). -/
def pySplitWsAux : List Char → List Char → List String
  | cur, [] => if cur.isEmpty then [] else [⟨cur.reverse⟩]
  | cur, c :: rest =>
    if isPyWs c then
      (if cur.isEmpty then pySplitWsAux [] rest
       else ⟨cur.reverse⟩ :: pySplitWsAux [] rest)
    else pySplitWsAux (c :: cur) rest

def pySplitWs (s : String) : List String :=
  pySplitWsAux [] s.toList

/-- `" ".join(text.split())` (generate.py line 238). -/
def collapseWs (s : String) : String :=
  String.intercalate " " (pySplitWs s)

/-- `Generator._shorten` (generate.py lines 233-241): collapse whitespace,
truncate to `max_len` characters cutting at the last space, append `…`. -/
def shorten (s : String) (max_len : ℕ) : String :=
  let text := collapseWs s
  if text.length ≤ max_len then text
  else
    let u := text.toList.take max_len
    match listLastIdx ' ' u with
    | some i => String.mk (u.take i) ++ "…"
    | none => String.mk u ++ "…"

/-- Split at the first occurrence of `sep` (one step of Python
`str.split(sep, n)` for non-empty `sep`). -/
def splitAtSub (sep : List Char) : List Char → Option (List Char × List Char)
  | [] => none
  | c :: rest =>
    if charsBegin sep (c :: rest) then some ([], (c :: rest).drop sep.length)
    else (splitAtSub sep rest).map (fun p => (c :: p.1, p.2))

/-- `Generator._strip_frontmatter` (generate.py lines 217-231):
`stripped.split("---", 2)` has three parts iff `---` occurs at least
twice; then the text after the second occurrence is returned. -/
def strip_frontmatter (text : String) : String :=
  let stripped := pyLStrip text
  if charsBegin "---".toList stripped.toList then
    match splitAtSub "---".toList stripped.toList with
    | some (_, b) =>
      match splitAtSub "---".toList b with
      | some (_, d) => String.mk d
      | none => text
    | none => text
  else text

/-- `Generator._extract_text_and_meta` on a dict-like item (generate.py
lines 186-215): `item.get("text") or item.get("page_content")` with
Python `or` (an empty string falls through), then
`item.get("meta") or item.get("metadata") or \x7b\x7d`. -/
def extract_text_and_meta (item : CtxItem) : Option String × DocMeta :=
  match pyOr item.text item.page_content with
  | none => (none, emptyMeta)
  | some t =>
    (some t, ((match item.meta with
               | some m => some m
               | none => item.metadata)).getD emptyMeta)

/-- One pass of the `_format_context` loop (generate.py lines 243-277):
`idx` numbers only the usable items; unusable ones (no `text` and no
`page_content`, where `None`-ness, not truthiness, is tested) are
skipped.  Returns the lines and the citation records. -/
def format_context : List CtxItem → ℕ → List String × List Graph.Citation
  | [], _ => ([], [])
  | item :: rest, idx =>
    let rawOpt :=
      match item.text with
      | some t => some t
      | none => item.page_content
    match rawOpt with
    | none => format_context rest idx
    | some raw =>
      let snippet := shorten (strip_frontmatter raw) 550
      let m := item.meta.getD emptyMeta
      let path :=
        pyStrOr (pyOr (pyOr (pyOr m.source_url m.path) m.source) m.url) "document"
      let line := "[" ++ toString idx ++ "] " ++ snippet ++ "\n(Source: " ++ path ++ ")\n"
      let r := format_context rest (idx + 1)
      (line :: r.1, ⟨idx, path⟩ :: r.2)

/-- One `_fallback_answer` snippet (generate.py lines 293-311); `i` is the
1-based `enumerate` counter over `ctx[:3]` (it advances on skipped items
too).  Note the source precedence here is `source_url, url, path, source`
— different from `_format_context`. -/
def fallbackItem (i : ℕ) (item : CtxItem) : Option String :=
  match extract_text_and_meta item with
  | (none, _) => none
  | (some t, m) =>
    if t = "" then none
    else
      let snippet := shorten (strip_frontmatter t) 350
      let path :=
        pyStrOr (pyOr (pyOr (pyOr m.source_url m.url) m.path) m.source) "document"
      some ("From source " ++ toString i ++ " (" ++ path ++ "): " ++ snippet)

/-- `Generator._fallback_answer` (generate.py lines 284-319): purely
string processing over the top three context items; never calls the model. -/
def fallback_answer (question : String) (ctx : List CtxItem) : String :=
  let snippets := ((ctx.take 3).enum.map (fun p => fallbackItem (p.1 + 1) p.2)).filterMap id
  let joined :=
    if snippets.isEmpty then "(no text available)"
    else String.intercalate "\n\n" snippets
  "I can\x27t use the language model right now because no OpenAI API key is configured " ++
  "or the model call failed.\n\n" ++
  "Here is a short summary of the most relevant University of Limerick information I could find:\n\n" ++
  joined

/-- `STUDENT_SYSTEM` (prompts.py lines 1-11). -/
def STUDENT_SYSTEM : String :=
  "You are a helpful, friendly assistant for students at the University of Limerick.\n" ++
  "You MUST answer using ONLY the information in the CONTEXT provided.\n" ++
  "If the CONTEXT contains even partial information that is safely correct " ++
  "(for example, someone\x27s role, department, centre, or contact details), " ++
  "you SHOULD answer using that information and clearly state any gaps.\n" ++
  "Only if there is no relevant information in the CONTEXT at all should you say you are not sure " ++
  "and suggest how to check on official UL systems (for example timetable.ul.ie, Academic Registry, or the module page).\n" ++
  "Never invent specific dates, times, room numbers or email addresses.\n" ++
  "When you state a concrete fact, try to reference the source using [1], [2], etc."

/-- `STAFF_SYSTEM` (prompts.py lines 14-19). -/
def STAFF_SYSTEM : String :=
  "You assist University of Limerick staff with concise, accurate information based ONLY on the provided CONTEXT.\n" ++
  "If a policy or date might have changed, explicitly say it should be verified on the linked UL page.\n" ++
  "Never invent specific dates, times, room numbers or email addresses.\n" ++
  "When stating facts, reference the source using [1], [2], etc. where possible."

/-- `USER_TEMPLATE.format(question=..., context=...)` (prompts.py lines
21-43), with the two placeholders substituted. -/
def userTemplate (question context : String) : String :=
  "You are answering a question about the University of Limerick.\n\n" ++
  "Question:\n" ++ question ++ "\n\n" ++
  "CONTEXT (these are snippets from official UL-related documents; base your answer ONLY on this):\n" ++
  context ++ "\n\n" ++
  "Instructions:\n" ++
  "- Be clear, friendly and direct.\n" ++
  "- If the CONTEXT directly answers the question, summarise it in your own words.\n" ++
  "- If the CONTEXT does not give enough information to answer exactly (for example a precise time or room), " ++
  "say you cannot see that detail and explain where the user can check.\n" ++
  "- Do NOT use any outside knowledge; stay within the CONTEXT.\n" ++
  "- Use up to 5 sentences for the main answer.\n" ++
  "- When you mention specific facts, refer to the relevant source using [1], [2], etc., matching the numbering in the CONTEXT.\n" ++
  "- Finish with:\n" ++
  "  Next steps:\n" ++
  "  - <bullet 1>\n" ++
  "  - <bullet 2 (optional)>" ++
  "- If the CONTEXT does not give enough information to answer exactly " ++
  "(for example a precise time or room), answer using whatever relevant information it DOES contain, " ++
  "and clearly say which details you cannot see.\n" ++
  "- Only if there is no relevant information at all in the CONTEXT should you say you are not sure.\n"

/-- The fixed no-documents answer (generate.py lines 61-69). -/
def noDocsMsg : String :=
  "I couldn\x27t find any University of Limerick documents that match your question. " ++
  "This usually means the site or page hasn\x27t been ingested yet."

/-- The unreadable-documents answer (generate.py lines 74-84). -/
def unreadableMsg : String :=
  "I retrieved some documents, but none of them contained readable text. " ++
  "This might indicate a parsing issue with the source pages. " ++
  "Please try rephrasing your question or consult the official UL website."

/-- `Generator.answer` (generate.py lines 37-108), instrumented with the
number of model-service invocations (second component).  Empty `ctx`
short-circuits before anything else; an all-unusable context degrades to
`unreadableMsg`; a missing client or a raised call uses the extractive
fallback. -/
def answer (client : Option (String → String → Option (Option String)))
    (modelName : String) (question : String) (ctx : List CtxItem)
    (mode locale : String) : Graph.GenResp × ℕ :=
  if ctx.isEmpty then
    (⟨some noDocsMsg, [], .genModel none⟩, 0)
  else
    let fc := format_context ctx 1
    let context_str := String.intercalate "\n" fc.1
    let cites := fc.2
    if pyStrip context_str = "" then
      (⟨some unreadableMsg, [], .genModel none⟩, 0)
    else
      let system := if mode = "student" then STUDENT_SYSTEM else STAFF_SYSTEM
      let user := userTemplate question context_str
      match client with
      | none => (⟨some (fallback_answer question ctx), cites, .genModel none⟩, 0)
      | some call =>
        match call system user with
        | some contentOpt => (⟨contentOpt, cites, .genModel (some modelName)⟩, 1)
        | none =>
          (⟨some (fallback_answer question ctx), cites, .genModel (some modelName)⟩, 1)

end Generator

/-! ## Chat session (`ul_rag/interfaces/chat_session.py`)

`ChatTurn.timestamp` (`datetime.utcnow`) is wall-clock time and plays no
role in any claim; it is omitted from the embedding.  `ask` additionally
returns, in `AskResult.asked`, the exact question string it passed to
`run_ul_rag`, so properties about "the augmented query" can be stated. -/

namespace ChatSession

structure ChatTurn where
  role : String
  content : String
  citations : List Graph.Citation
  meta : Graph.StageMeta
deriving DecidableEq

structure Session where
  mode : String
  locale : String
  session_id : String
  history : List ChatTurn
deriving DecidableEq

/-- The collection loop of `_build_query_with_context` (chat_session.py
lines 64-70): walk the reversed history, keep the contents of `user`
turns, stop after two. -/
def collectPrevUser : List ChatTurn → ℕ → List String
  | _, 0 => []
  | [], _ => []
  | t :: rest, Nat.succ n =>
    if t.role = "user" then t.content :: collectPrevUser rest n
    else collectPrevUser rest (Nat.succ n)

/-- `RAGChatSession._build_query_with_context` (chat_session.py lines
47-93); the collected messages are flipped back to chronological order
and the lines are joined with newlines. -/
def build_query_with_context (history : List ChatTurn) (new_question : String) :
    String :=
  match (collectPrevUser history.reverse 2).reverse with
  | [] => new_question
  | [p] =>
    "Previous question: " ++ p ++ "\n" ++ "Current question: " ++ new_question
  | p1 :: p2 :: _ =>
    "Previous questions:" ++ "\n" ++ "1) " ++ p1 ++ "\n" ++ "2) " ++ p2 ++ "\n" ++
    "Current question: " ++ new_question

/-- The dict `run_ul_rag` returns, as consumed by `ask`. -/
structure PipelineResp where
  answer : Option String
  citations : List Graph.Citation
  meta : Graph.StageMeta

/-- `resp.get("answer", "") or "Sorry, I could not generate an answer."`
(chat_session.py line 113): Python `or` replaces `None` and `""`. -/
def botContentOf (a : Option String) : String :=
  match a with
  | some s => if s = "" then "Sorry, I could not generate an answer." else s
  | none => "Sorry, I could not generate an answer."

structure AskResult where
  session : Session
  asked : String
  turn : ChatTurn

/-- `RAGChatSession.ask` (chat_session.py lines 97-124): build the
context-augmented query from the PREVIOUS history, append the raw user
turn, invoke the pipeline (`runFn`) with the augmented query, append the
assistant turn. -/
def ask (runFn : String → String → String → PipelineResp) (s : Session)
    (text : String) : AskResult :=
  let question_with_context := build_query_with_context s.history text
  let user_turn : ChatTurn := ⟨"user", text, [], .empty⟩
  let hist1 := s.history ++ [user_turn]
  let resp := runFn question_with_context s.mode s.locale
  let bot_turn : ChatTurn :=
    ⟨"assistant", botContentOf resp.answer, resp.citations, resp.meta⟩
  ⟨{ s with history := hist1 ++ [bot_turn] }, question_with_context, bot_turn⟩

end ChatSession

/-! ## Specification-side definitions

These definitions are written from the WORDS of the specification (not the
source), to be compared with the source embedding above for the refinement
claims about `_rrf_fuse`. -/

/-- First-occurrence deduplication: keeps each value at the position of its
first appearance (`seen` accumulates values already emitted). -/
def firstKeysAux (seen : List ℕ) : List ℕ → List ℕ
  | [] => []
  | a :: l =>
    if a ∈ seen then firstKeysAux seen l else a :: firstKeysAux (a :: seen) l

/-- 0-based position of the first occurrence of `j` in a list. -/
def posOf (j : ℕ) : List ℕ → Option ℕ
  | [] => none
  | a :: l => if a = j then some 0 else (posOf j l).map (· + 1)

/-- The RRF contribution of index `j` from a ranked key list `ks` when the
loop counter started at `r` (0-based positions): `1/(k + r + position)`. -/
def rrfContrib (k r : ℕ) (ks : List ℕ) (j : ℕ) : ℚ :=
  match posOf j ks with
  | some t => mkRat 1 (k + r + t)
  | none => 0

/-- Modelled from the spec sentence of claim C2: the summed score with
1-BASED ranks, `1 / (k_rrf + rank_in_list)` where rank = position + 1. -/
def rrfClaimScore (dense sparse : List (ℕ × ℚ)) (k : ℕ) (i : ℕ) : ℚ :=
  qadd
    (match posOf i (dense.map Prod.fst) with
     | some r => mkRat 1 (k + r + 1)
     | none => 0)
    (match posOf i (sparse.map Prod.fst) with
     | some r => mkRat 1 (k + r + 1)
     | none => 0)

/-- Insertion step for the order demanded by claim C2: descending score,
ties broken by ascending chunk index. -/
def claimInsert (x : ℕ × ℚ) : List (ℕ × ℚ) → List (ℕ × ℚ)
  | [] => [x]
  | y :: l =>
    if y.2 < x.2 ∨ (x.2 = y.2 ∧ x.1 < y.1) then x :: y :: l
    else y :: claimInsert x l

/-- Sort for the order demanded by claim C2 (on pairwise-distinct indices
this is the unique order that is descending on score with ties broken by
index). -/
def claimSort : List (ℕ × ℚ) → List (ℕ × ℚ)
  | [] => []
  | x :: l => claimInsert x (claimSort l)

/-- Claim C2 as stated: every appearing chunk index scored by
`rrfClaimScore` (1-based ranks), returned in descending score order with
ties broken by chunk index. -/
def rrf_fuse_claim (dense sparse : List (ℕ × ℚ)) (k : ℕ) : List ℕ :=
  let keys := firstKeysAux [] (dense.map Prod.fst ++ sparse.map Prod.fst)
  (claimSort (keys.map (fun i => (i, rrfClaimScore dense sparse k i)))).map Prod.fst

/-- The amended claim C2: scores use 0-BASED positions
(`1 / (k_rrf + position)`, the `enumerate` counter of the source), and the
final order is descending summed score with ties broken by FIRST-INSERTION
order — dense-list order first, then sparse-only indices in sparse-list
order (a stable descending sort over the first-appearance key list). -/
def rrf_fuse_amended (dense sparse : List (ℕ × ℚ)) (k : ℕ) : List ℕ :=
  let keys := firstKeysAux [] (dense.map Prod.fst ++ sparse.map Prod.fst)
  (sortDesc Prod.snd
    (keys.map (fun i =>
      (i, qadd (rrfContrib k 0 (dense.map Prod.fst) i)
              (rrfContrib k 0 (sparse.map Prod.fst) i))))).map Prod.fst

/-- A concrete chunk metadata whose host contains `ul.ie`, used in
concrete evaluations. -/
def ulMeta : DocMeta :=
  ⟨some "www.ul.ie", none, none, none, none, none⟩

/-! # Lemmas -/

theorem qadd_eq (a b : ℚ) : qadd a b = a + b := by
  have ha : (a.den : ℚ) ≠ 0 := Nat.cast_ne_zero.2 (Rat.den_ne_zero a)
  have hb : (b.den : ℚ) ≠ 0 := Nat.cast_ne_zero.2 (Rat.den_ne_zero b)
  have h1 : (a.num : ℚ) = a * a.den := (div_eq_iff ha).1 (Rat.num_div_den a)
  have h2 : (b.num : ℚ) = b * b.den := (div_eq_iff hb).1 (Rat.num_div_den b)
  rw [qadd, Rat.mkRat_eq_div]
  push_cast
  rw [h1, h2, div_eq_iff (mul_ne_zero ha hb)]
  ring

theorem rerankBias_eq : Reranker.rerankBias = 0.2 := by
  rw [Reranker.rerankBias, Rat.mkRat_eq_div]
  norm_num

theorem insDesc_perm (key : α → ℚ) (x : α) (l : List α) :
    List.Perm (insDesc key x l) (x :: l) := by
  induction l with
  | nil => simp [insDesc]
  | cons y t ih =>
    by_cases h : key y ≤ key x
    · simp [insDesc, h]
    · simp only [insDesc, if_neg h]
      exact ((ih.cons y).trans (List.Perm.swap x y t))

theorem sortDesc_perm (key : α → ℚ) (l : List α) :
    List.Perm (sortDesc key l) l := by
  induction l with
  | nil => simp [sortDesc]
  | cons x t ih =>
    exact (insDesc_perm key x (sortDesc key t)).trans (ih.cons x)

/-- The rank numbers produced by `enumerate(top, start=1)`. -/
theorem enumFrom_map_rank (l : List α) (n : ℕ) :
    (List.enumFrom n l).map (fun p => p.1 + 1) = List.range' (n + 1) l.length := by
  induction l generalizing n with
  | nil => simp
  | cons x t ih => simp [List.range', ih]

/-! # Claim theorems -/

/-- Claim C6 (confirmed): for every question, mode and locale (and any
model-service state), `Generator.answer` on an empty document list returns
the fixed "no documents found" message with empty citations and performs
zero model-service calls. -/
theorem claim6_answer_empty_docs
    (client : Option (String → String → Option (Option String)))
    (modelName question mode locale : String) :
    Generator.answer client modelName question [] mode locale =
      (⟨some Generator.noDocsMsg, [], .genModel none⟩, 0) := by
  rfl

/-- Claim C8 (confirmed): starting from a fresh session, two `ask` calls
leave exactly four turns in order user/assistant/user/assistant, the user
turns store the raw (unaugmented) texts, and the second call's augmented
query contains the first user turn's text literally. -/
theorem claim8_chat_session
    (runFn : String → String → String → ChatSession.PipelineResp)
    (mode locale sid t1 t2 : String) :
    (ChatSession.ask runFn
        (ChatSession.ask runFn ⟨mode, locale, sid, []⟩ t1).session
        t2).session.history.map ChatSession.ChatTurn.role =
      ["user", "assistant", "user", "assistant"] ∧
    (ChatSession.ask runFn
        (ChatSession.ask runFn ⟨mode, locale, sid, []⟩ t1).session
        t2).session.history.map ChatSession.ChatTurn.content =
      [t1, (ChatSession.ask runFn ⟨mode, locale, sid, []⟩ t1).turn.content, t2,
       (ChatSession.ask runFn
          (ChatSession.ask runFn ⟨mode, locale, sid, []⟩ t1).session t2).turn.content] ∧
    (ChatSession.ask runFn
        (ChatSession.ask runFn ⟨mode, locale, sid, []⟩ t1).session t2).asked =
      "Previous question: " ++ t1 ++ "\n" ++ "Current question: " ++ t2 ∧
    ∃ a b,
      (ChatSession.ask runFn
          (ChatSession.ask runFn ⟨mode, locale, sid, []⟩ t1).session t2).asked =
        a ++ t1 ++ b := by
  refine ⟨?_, ?_, ?_, ?_⟩
  · simp [ChatSession.ask, ChatSession.build_query_with_context,
      ChatSession.collectPrevUser]
  · simp [ChatSession.ask, ChatSession.build_query_with_context,
      ChatSession.collectPrevUser]
  · simp [ChatSession.ask, ChatSession.build_query_with_context,
      ChatSession.collectPrevUser]
  · exact ⟨"Previous question: ", "\n" ++ "Current question: " ++ t2, by
      simp [ChatSession.ask, ChatSession.build_query_with_context,
        ChatSession.collectPrevUser, String.append_assoc]⟩

/-- Claim C5 (confirmed): `retrieve` returns at most `max_chunks` documents
whose `rank` fields are `1..len(result)` in final order, and an
empty/whitespace-only query yields `[]` immediately — in particular the
result is then independent of the dense and sparse search functions
(no search is performed). -/
theorem claim5_retrieve_bounds (corpus : Retriever.IndexedCorpus)
    (denseFn sparseFn : String → ℕ → List (ℕ × ℚ))
    (cross : String → String → ℚ) (q : String) (N : ℕ) (hint : Option String) :
    (Retriever.retrieve corpus denseFn sparseFn cross q N hint).length ≤ N ∧
    (Retriever.retrieve corpus denseFn sparseFn cross q N hint).map
        Retriever.RetrievedDoc.rank =
      List.range' 1 (Retriever.retrieve corpus denseFn sparseFn cross q N hint).length ∧
    (pyStrip q = "" →
      Retriever.retrieve corpus denseFn sparseFn cross q N hint = [] ∧
      ∀ denseFn' sparseFn',
        Retriever.retrieve corpus denseFn' sparseFn' cross q N hint = []) := by
  by_cases hq : pyStrip q = ""
  · refine ⟨?_, ?_, fun _ => ⟨?_, fun d s => ?_⟩⟩ <;>
      simp [Retriever.retrieve, hq]
  · refine ⟨?_, ?_, fun h => absurd h hq⟩
    · simp only [Retriever.retrieve, if_neg hq, List.length_map, List.enum_length,
        List.length_take]
      exact min_le_left _ _
    · simp only [Retriever.retrieve, if_neg hq, List.map_map, List.length_map,
        List.enum_length]
      exact enumFrom_map_rank _ 0

/-- Claim C1 (code bug): `retrieve` is supposed to rerank with the given
`domain_hint`, but line 134 of retriever.py comments the argument out, so
`retrieve` is INDEPENDENT of `domain_hint` (first conjunct), even though
`Reranker.rerank` itself does apply the bias for a matching hint (second
conjunct: at a concrete matching candidate the hint changes the result,
so the hint would have mattered had it been forwarded). -/
theorem claim1_retrieve_ignores_domain_hint :
    (∀ (corpus : Retriever.IndexedCorpus)
       (denseFn sparseFn : String → ℕ → List (ℕ × ℚ))
       (cross : String → String → ℚ) (q : String) (N : ℕ)
       (hint : Option String),
       Retriever.retrieve corpus denseFn sparseFn cross q N hint =
         Retriever.retrieve corpus denseFn sparseFn cross q N none) ∧
    Reranker.rerank (fun _ _ => 0) "exams" [("t", ulMeta)] (some "ul.ie")
        Reranker.rerankBias ≠
      Reranker.rerank (fun _ _ => 0) "exams" [("t", ulMeta)] none
        Reranker.rerankBias := by
  constructor
  · intro corpus denseFn sparseFn cross q N hint
    rfl
  · decide

/-- Claim C5 witness: a whitespace-only query retrieves nothing. -/
theorem claim5_witness :
    Retriever.retrieve ⟨["a"], [ulMeta]⟩ (fun _ _ => [(0, 1)]) (fun _ _ => [])
      (fun _ _ => 0) "  " 6 none = [] :=
  ((claim5_retrieve_bounds ⟨["a"], [ulMeta]⟩ (fun _ _ => [(0, 1)]) (fun _ _ => [])
      (fun _ _ => 0) "  " 6 none).2.2 (by decide)).1

theorem routePost_query_type (p : Router.QueryPlan) :
    (Router.routePost p).query_type = p.query_type := by
  unfold Router.routePost
  split <;> [rfl; skip]
  split <;> rfl

theorem routePost_max_chunks (p : Router.QueryPlan) :
    (Router.routePost p).max_chunks = p.max_chunks := by
  unfold Router.routePost
  split <;> [rfl; skip]
  split <;> rfl

theorem routePost_default (q : String) :
    Router.routePost (Router.default_plan q) = Router.default_plan q := by
  unfold Router.routePost Router.default_plan
  simp

theorem planFromData_query_type_mem (data : List (String × JVal)) :
    (Router.planFromData data).query_type ∈ Router.allowedTypes := by
  unfold Router.planFromData
  rcases hv : (jGet data "query_type").getD (.jstr "general") with _ | b | v | s | l | d <;>
    simp only [hv] <;> try decide
  by_cases hs : s ∈ Router.allowedTypes
  · simp only [if_pos hs]
    exact hs
  · simp only [if_neg hs]
    decide

theorem parse_json_shape (jsonLoads : String → Option JVal) (content : String)
    (p : Router.QueryPlan) (h : Router.parse_json jsonLoads content = some p) :
    ∃ data, p = Router.planFromData data := by
  simp only [Router.parse_json] at h
  by_cases hraw : pyStrip content = ""
  · rw [if_pos hraw] at h
    cases h
  · rw [if_neg hraw] at h
    split at h
    · exact ⟨_, (Option.some.inj h).symm⟩
    · cases h

/-- Claim C4 (confirmed): whenever the model service is unavailable, the
call raises, or its output is empty/unparseable, `route` returns the
rule-based default plan (`query_type=general`, `retrieval_mode=hybrid`,
`max_chunks=6`, topic by keyword containment) — and in every case
`route(q).query_type` lies in the closed query-type set. -/
theorem claim4_route_fallback (clientConfigured : Bool)
    (llmResp : Option (Option String)) (jsonLoads : String → Option JVal)
    (q : String) :
    ((clientConfigured = false ∨ llmResp = none ∨
        (∀ c, llmResp = some c → Router.parse_json jsonLoads (c.getD "") = none)) →
      Router.route clientConfigured llmResp jsonLoads q = Router.default_plan q ∧
      (Router.route clientConfigured llmResp jsonLoads q).query_type = "general" ∧
      (Router.route clientConfigured llmResp jsonLoads q).retrieval_mode = "hybrid" ∧
      (Router.route clientConfigured llmResp jsonLoads q).max_chunks = 6 ∧
      (Router.route clientConfigured llmResp jsonLoads q).domain_hint = none ∧
      (Router.route clientConfigured llmResp jsonLoads q).topic =
        (if pyIn "lero" (pyLower q) then "lero"
         else if pyIn "csis" (pyLower q) then "csis"
         else if pyIn "accommodation" (pyLower q) then "accommodation"
         else "")) ∧
    (Router.route clientConfigured llmResp jsonLoads q).query_type ∈
      Router.allowedTypes := by
  constructor
  · intro hfail
    have hroute : Router.route clientConfigured llmResp jsonLoads q =
        Router.default_plan q := by
      cases clientConfigured with
      | false => rfl
      | true =>
        cases llmResp with
        | none => rfl
        | some c =>
          rcases hfail with hc | hn | hp
          · cases hc
          · cases hn
          · show Router.routePost
              ((Router.parse_json jsonLoads (c.getD "")).getD (Router.default_plan q)) =
                Router.default_plan q
            rw [hp c rfl]
            exact routePost_default q
    refine ⟨hroute, ?_, ?_, ?_, ?_, ?_⟩ <;> rw [hroute] <;>
      simp [Router.default_plan]
  · cases clientConfigured with
    | false => exact show "general" ∈ Router.allowedTypes by decide
    | true =>
      cases llmResp with
      | none => exact show "general" ∈ Router.allowedTypes by decide
      | some c =>
        show (Router.routePost
            ((Router.parse_json jsonLoads (c.getD "")).getD (Router.default_plan q))).query_type ∈
          Router.allowedTypes
        cases hp : Router.parse_json jsonLoads (c.getD "") with
        | none =>
          rw [Option.getD_none, routePost_default q]
          exact show "general" ∈ Router.allowedTypes by decide
        | some p =>
          obtain ⟨data, hdata⟩ := parse_json_shape jsonLoads (c.getD "") p hp
          rw [Option.getD_some, routePost_query_type, hdata]
          exact planFromData_query_type_mem data

/-- Claim C4 witness: no configured client, fallback plan at a concrete
question. -/
theorem claim4_witness :
    Router.route false none (fun _ => none) "tell me about lero" =
      Router.default_plan "tell me about lero" :=
  ((claim4_route_fallback false none (fun _ => none) "tell me about lero").1
      (Or.inl rfl)).1

/-- Claim C9 counterexample: a classifier output `\x7b"max_chunks": -5\x7d`
parses, the value is coerced by `int(...)` and kept, so the returned plan's
`max_chunks` is `-5` — NOT a positive integer as the claim states. -/
theorem claim9_counterexample :
    ¬ (0 < (Router.route true (some (some "\x7b\x22max_chunks\x22: -5\x7d"))
        (fun s => if s = "\x7b\x22max_chunks\x22: -5\x7d"
                  then some (.jdict [("max_chunks", .jnum (-5))]) else none)
        "how many modules?").max_chunks) := by
  decide

/-- Claim C9 amended: on any successfully parsed classifier object, the
returned plan's `max_chunks` is the `int()` coercion of the supplied value
with `6` substituted when the key is missing or the coercion fails — no
positivity is enforced, so a non-positive supplied integer is kept. -/
theorem claim9_max_chunks_amended (jsonLoads : String → Option JVal)
    (content q : String) (data : List (String × JVal))
    (hne : pyStrip content ≠ "")
    (hJ : jsonLoads (pyStrip content) = some (.jdict data)) :
    (Router.route true (some (some content)) jsonLoads q).max_chunks =
      (pyToInt ((jGet data "max_chunks").getD (.jnum 6))).getD 6 := by
  show (Router.routePost
      ((Router.parse_json jsonLoads content).getD (Router.default_plan q))).max_chunks = _
  have hp : Router.parse_json jsonLoads content =
      some (Router.planFromData data) := by
    simp only [Router.parse_json, if_neg hne, hJ]
  rw [hp, Option.getD_some, routePost_max_chunks]
  rfl

/-- Claim C9 witness: a non-numeric `max_chunks` value falls back to 6. -/
theorem claim9_witness :
    (Router.route true (some (some "\x7b\x22max_chunks\x22: \x22abc\x22\x7d"))
      (fun s => if s = "\x7b\x22max_chunks\x22: \x22abc\x22\x7d"
                then some (.jdict [("max_chunks", .jstr "abc")]) else none)
      "how many modules?").max_chunks = 6 :=
  (claim9_max_chunks_amended
      (fun s => if s = "\x7b\x22max_chunks\x22: \x22abc\x22\x7d"
                then some (.jdict [("max_chunks", .jstr "abc")]) else none)
      "\x7b\x22max_chunks\x22: \x22abc\x22\x7d" "how many modules?"
      [("max_chunks", .jstr "abc")] (by decide) (by rfl)).trans (by decide)

theorem route_node_frame (f : String → Router.QueryPlan) (s : Graph.ULState) :
    (Graph.route_node f s).answer = s.answer ∧
    (Graph.route_node f s).citations = s.citations ∧
    (Graph.route_node f s).meta = s.meta :=
  ⟨rfl, rfl, rfl⟩

theorem retrieve_node_frame
    (f : String → ℤ → Option String → List Retriever.RetrievedDoc)
    (s : Graph.ULState) :
    (Graph.retrieve_node f s).answer = s.answer ∧
    (Graph.retrieve_node f s).citations = s.citations ∧
    (Graph.retrieve_node f s).meta = s.meta := by
  unfold Graph.retrieve_node
  split <;> (dsimp only; split <;> exact ⟨rfl, rfl, rfl⟩)

theorem generate_node_skip (cc nn : String → String → String → String)
    (ans : String → List Retriever.RetrievedDoc → String → String → Graph.GenResp)
    (s : Graph.ULState) (h : s.answer ≠ none) :
    Graph.generate_node cc nn ans s = s := by
  unfold Graph.generate_node
  rw [if_pos h]

/-- Claim C3 counterexample: on the escalating question
`"I want to kill myself"`, the route node does NOT pass the state through
unchanged (it recomputes and stores a plan), and the retrieve node does
NOT pass the state through unchanged either (it performs a retrieval and
stores its documents) — routing and retrieval are not skipped. -/
theorem claim3_counterexample :
    Graph.route_node (fun _ => ⟨"general", "", false, "hybrid", 6, none⟩)
        (Graph.safety_node (Graph.initState "I want to kill myself" "student" "IE")) ≠
      Graph.safety_node (Graph.initState "I want to kill myself" "student" "IE") ∧
    Graph.retrieve_node (fun _ _ _ => [⟨"exam text", ulMeta, 0, 1⟩])
        (Graph.route_node (fun _ => ⟨"general", "", false, "hybrid", 6, none⟩)
          (Graph.safety_node (Graph.initState "I want to kill myself" "student" "IE"))) ≠
      Graph.route_node (fun _ => ⟨"general", "", false, "hybrid", 6, none⟩)
        (Graph.safety_node (Graph.initState "I want to kill myself" "student" "IE")) := by
  decide

/-- Claim C3 amended: on an escalating question the pipeline's final
answer is the fixed, non-generated safety message with empty citations;
GENERATION is skipped (any state with a pre-set non-null `answer` passes
through `generate_node` unchanged), but the route and retrieve nodes still
execute (see the counterexample) — they merely preserve `answer`,
`citations` and `meta`. -/
theorem claim3_escalation_amended
    (routeFn : String → Router.QueryPlan)
    (retrieveFn : String → ℤ → Option String → List Retriever.RetrievedDoc)
    (chitchatFn nonsenseFn : String → String → String → String)
    (answerFn : String → List Retriever.RetrievedDoc → String → String → Graph.GenResp)
    (question mode locale : String)
    (hesc : (Safety.check_escalation question).escalate = true) :
    (Graph.run_ul_rag routeFn retrieveFn chitchatFn nonsenseFn answerFn
        question mode locale).answer = some (Safety.escalation_message locale) ∧
    (Graph.run_ul_rag routeFn retrieveFn chitchatFn nonsenseFn answerFn
        question mode locale).citations = [] ∧
    (Graph.run_ul_rag routeFn retrieveFn chitchatFn nonsenseFn answerFn
        question mode locale).meta = .escalation (some "crisis") ∧
    (∀ s : Graph.ULState, s.answer ≠ none →
       Graph.generate_node chitchatFn nonsenseFn answerFn s = s) := by
  have hck : Safety.check_escalation question = ⟨true, some "crisis"⟩ := by
    by_cases hc : (Safety.crisisKeywords.any (fun k => pyIn k (pyLower question))) = true
    · simp [Safety.check_escalation, hc]
    · exfalso
      simp [Safety.check_escalation, hc] at hesc
  have hsafe_ans : (Graph.safety_node (Graph.initState question mode locale)).answer =
      some (Safety.escalation_message locale) := by
    simp [Graph.safety_node, hck, Graph.initState]
  have hsafe_cit : (Graph.safety_node (Graph.initState question mode locale)).citations = [] := by
    simp [Graph.safety_node, hck, Graph.initState]
  have hsafe_meta : (Graph.safety_node (Graph.initState question mode locale)).meta =
      .escalation (some "crisis") := by
    simp [Graph.safety_node, hck, Graph.initState]
  have h1 := route_node_frame routeFn
    (Graph.safety_node (Graph.initState question mode locale))
  have h2 := retrieve_node_frame retrieveFn
    (Graph.route_node routeFn (Graph.safety_node (Graph.initState question mode locale)))
  have hans : (Graph.retrieve_node retrieveFn
      (Graph.route_node routeFn
        (Graph.safety_node (Graph.initState question mode locale)))).answer =
      some (Safety.escalation_message locale) := by
    rw [h2.1, h1.1, hsafe_ans]
  have hskip := generate_node_skip chitchatFn nonsenseFn answerFn
    (Graph.retrieve_node retrieveFn
      (Graph.route_node routeFn
        (Graph.safety_node (Graph.initState question mode locale))))
    (by rw [hans]; exact Option.some_ne_none _)
  refine ⟨?_, ?_, ?_, fun s h => generate_node_skip chitchatFn nonsenseFn answerFn s h⟩
  · show (Graph.generate_node chitchatFn nonsenseFn answerFn
      (Graph.retrieve_node retrieveFn
        (Graph.route_node routeFn
          (Graph.safety_node (Graph.initState question mode locale))))).answer = _
    rw [hskip, hans]
  · show (Graph.generate_node chitchatFn nonsenseFn answerFn
      (Graph.retrieve_node retrieveFn
        (Graph.route_node routeFn
          (Graph.safety_node (Graph.initState question mode locale))))).citations = _
    rw [hskip, h2.2.1, h1.2.1, hsafe_cit]
  · show (Graph.generate_node chitchatFn nonsenseFn answerFn
      (Graph.retrieve_node retrieveFn
        (Graph.route_node routeFn
          (Graph.safety_node (Graph.initState question mode locale))))).meta = _
    rw [hskip, h2.2.2, h1.2.2, hsafe_meta]

/-- Claim C3 witness: a concrete escalating run returns the fixed safety
message with empty citations. -/
theorem claim3_witness :
    (Graph.run_ul_rag (fun _ => ⟨"general", "", false, "hybrid", 6, none⟩)
        (fun _ _ _ => []) (fun _ _ _ => "hi") (fun _ _ _ => "pardon?")
        (fun _ _ _ _ => ⟨some "ans", [], .empty⟩)
        "I want to kill myself" "student" "IE").answer =
      some (Safety.escalation_message "IE") :=
  (claim3_escalation_amended (fun _ => ⟨"general", "", false, "hybrid", 6, none⟩)
      (fun _ _ _ => []) (fun _ _ _ => "hi") (fun _ _ _ => "pardon?")
      (fun _ _ _ _ => ⟨some "ans", [], .empty⟩)
      "I want to kill myself" "student" "IE" (by decide)).1

/-- Claim C7 counterexample: with the empty-string hint `""`, the
candidate's host does contain the hint (the empty string is a substring of
everything), yet `if domain_hint:` is falsy in Python, so NO bias is
applied: the result equals the no-hint run and the matched candidate's
score is not `base + bias`. -/
theorem claim7_counterexample :
    Reranker.domainMatch "" ulMeta = true ∧
    Reranker.rerank (fun _ _ => 0) "q" [("t", ulMeta)] (some "")
        Reranker.rerankBias =
      Reranker.rerank (fun _ _ => 0) "q" [("t", ulMeta)] none
        Reranker.rerankBias ∧
    ¬ ((Reranker.rerank (fun _ _ => 0) "q" [("t", ulMeta)] (some "")
          Reranker.rerankBias).map (fun t => t.1) =
        [qadd 0 Reranker.rerankBias]) := by
  decide

/-- Claim C7 amended: for every NON-EMPTY `domain_hint`, `rerank` assigns
each candidate whose source host or path contains the hint
(case-insensitively) the effective score `base + bias`, where `base` is
the cross-encoder score it also receives when no hint is supplied; every
non-matching candidate keeps exactly its base score.  (Stated as
permutations because `rerank` additionally sorts.) -/
theorem claim7_rerank_bias_amended (cross : String → String → ℚ)
    (query : String) (docs : List (String × DocMeta)) (h : String)
    (bias : ℚ) (hh : h ≠ "") :
    List.Perm (Reranker.rerank cross query docs (some h) bias)
      (docs.map (fun d =>
        (cross query d.1 + (if Reranker.domainMatch h d.2 then bias else 0),
         d.1, d.2))) ∧
    List.Perm (Reranker.rerank cross query docs none bias)
      (docs.map (fun d => (cross query d.1, d.1, d.2))) := by
  by_cases hde : docs = []
  · subst hde
    exact ⟨List.Perm.refl _, List.Perm.refl _⟩
  · have hne : ¬ (docs.isEmpty = true) := by
      simpa [List.isEmpty_iff] using hde
    constructor
    · show List.Perm
        (if docs.isEmpty then [] else _) _
      rw [if_neg hne]
      refine (sortDesc_perm _ _).trans (List.Perm.of_eq ?_)
      apply List.map_congr_left
      intro d _
      dsimp only
      rw [if_pos hh]
      by_cases hm : Reranker.domainMatch h d.2 = true
      · rw [if_pos hm, if_pos hm, qadd_eq]
      · rw [if_neg hm, if_neg hm, add_zero]
    · show List.Perm
        (if docs.isEmpty then [] else _) _
      rw [if_neg hne]
      exact sortDesc_perm _ _

/-- Claim C7 witness: a concrete matching candidate under hint `ul.ie`. -/
theorem claim7_witness :
    List.Perm
      (Reranker.rerank (fun _ _ => 0) "q" [("t", ulMeta)] (some "ul.ie")
        Reranker.rerankBias)
      ([("t", ulMeta)].map (fun d =>
        ((fun _ _ => (0 : ℚ)) "q" d.1 +
           (if Reranker.domainMatch "ul.ie" d.2 then Reranker.rerankBias else 0),
         d.1, d.2))) :=
  (claim7_rerank_bias_amended (fun _ _ => 0) "q" [("t", ulMeta)] "ul.ie"
      Reranker.rerankBias (by decide)).1

/-- The keys of the `dict` after `ranks[idx] = ranks.get(idx, 0.0) + c`:
unchanged for an existing key, appended for a new one. -/
theorem rrfInsert_keys (acc : List (ℕ × ℚ)) (i : ℕ) (c : ℚ) :
    (Retriever.rrfInsert acc i c).map Prod.fst =
      if i ∈ acc.map Prod.fst then acc.map Prod.fst
      else acc.map Prod.fst ++ [i] := by
  induction acc with
  | nil => simp [Retriever.rrfInsert]
  | cons p rest ih =>
    obtain ⟨j, v⟩ := p
    by_cases hj : j = i
    · subst hj
      simp [Retriever.rrfInsert]
    · simp only [Retriever.rrfInsert, if_neg hj, List.map_cons, ih]
      have hij : ¬ i = j := fun h => hj h.symm
      by_cases hi : i ∈ rest.map Prod.fst
      · simp [hi, hij]
      · simp [hi, hij]

/-- Accumulating a ranked list into the `dict` keeps the keys `Nodup` and
only introduces keys of the accumulated list. -/
theorem rrfAdd_keys (k : ℕ) (l : List (ℕ × ℚ)) :
    ∀ (acc : List (ℕ × ℚ)) (r : ℕ),
      ((acc.map Prod.fst).Nodup →
        ((Retriever.rrfAdd k r acc l).map Prod.fst).Nodup) ∧
      (∀ j ∈ (Retriever.rrfAdd k r acc l).map Prod.fst,
        j ∈ acc.map Prod.fst ∨ j ∈ l.map Prod.fst) := by
  induction l with
  | nil => exact fun acc r => ⟨fun h => h, fun j hj => Or.inl hj⟩
  | cons p rest ih =>
    intro acc r
    obtain ⟨x, s⟩ := p
    constructor
    · intro hnd
      apply (ih (Retriever.rrfInsert acc x (mkRat 1 (k + r))) (r + 1)).1
      rw [rrfInsert_keys]
      split
      · exact hnd
      · rename_i hx
        simp [List.nodup_append, hnd, hx]
    · intro j hj
      rcases (ih (Retriever.rrfInsert acc x (mkRat 1 (k + r))) (r + 1)).2 j hj with
        hin | hin
      · rw [rrfInsert_keys] at hin
        split at hin
        · exact Or.inl hin
        · rcases List.mem_append.1 hin with h | h
          · exact Or.inl h
          · simp only [List.mem_singleton] at h
            subst h
            exact Or.inr (by simp)
      · exact Or.inr (by simp [hin])

/-- `_rrf_fuse` returns pairwise-distinct indices, each taken from one of
its two input lists. -/
theorem rrf_fuse_keys (dense sparse : List (ℕ × ℚ)) (k : ℕ) :
    (Retriever.rrf_fuse dense sparse k).Nodup ∧
    ∀ j ∈ Retriever.rrf_fuse dense sparse k,
      j ∈ dense.map Prod.fst ∨ j ∈ sparse.map Prod.fst := by
  have hperm0 : List.Perm
      ((sortDesc (fun p => p.2)
        (Retriever.rrfAdd k 0 (Retriever.rrfAdd k 0 [] dense) sparse)).map
          Prod.fst)
      ((Retriever.rrfAdd k 0 (Retriever.rrfAdd k 0 [] dense) sparse).map
        Prod.fst) :=
    (sortDesc_perm (fun p => p.2) _).map Prod.fst
  have hperm : List.Perm (Retriever.rrf_fuse dense sparse k)
      ((Retriever.rrfAdd k 0 (Retriever.rrfAdd k 0 [] dense) sparse).map
        Prod.fst) := hperm0
  have hinner := rrfAdd_keys k dense [] 0
  have hout := rrfAdd_keys k sparse (Retriever.rrfAdd k 0 [] dense) 0
  constructor
  · exact hperm.nodup_iff.2 (hout.1 (hinner.1 (by simp)))
  · intro j hj
    rcases hout.2 j (hperm.mem_iff.1 hj) with h | h
    · rcases hinner.2 j h with h0 | h0
      · simp at h0
      · exact Or.inl h0
    · exact Or.inr h

/-- Claim C10 (confirmed): `_rrf_fuse` returns pairwise-distinct indices,
each occurring in at least one input list; hence when the two searches
return only valid positions of the corpus arrays, every fused index is in
range for `texts` and `metas` and the candidate lookups in `retrieve`
never index out of bounds. -/
theorem claim10_fuse_indices_safe (dense sparse : List (ℕ × ℚ)) (k : ℕ)
    (corpus : Retriever.IndexedCorpus)
    (hd : ∀ p ∈ dense, p.1 < corpus.texts.length ∧ p.1 < corpus.metas.length)
    (hs : ∀ p ∈ sparse, p.1 < corpus.texts.length ∧ p.1 < corpus.metas.length) :
    (Retriever.rrf_fuse dense sparse k).Nodup ∧
    (∀ i ∈ Retriever.rrf_fuse dense sparse k,
       i ∈ dense.map Prod.fst ∨ i ∈ sparse.map Prod.fst) ∧
    (∀ i ∈ Retriever.rrf_fuse dense sparse k,
       (corpus.texts.get? i).isSome ∧ (corpus.metas.get? i).isSome) := by
  refine ⟨(rrf_fuse_keys dense sparse k).1, (rrf_fuse_keys dense sparse k).2, ?_⟩
  intro i hi
  have hb : i < corpus.texts.length ∧ i < corpus.metas.length := by
    rcases (rrf_fuse_keys dense sparse k).2 i hi with h | h
    · obtain ⟨p, hp, hpe⟩ := List.mem_map.1 h
      exact hpe ▸ hd p hp
    · obtain ⟨p, hp, hpe⟩ := List.mem_map.1 h
      exact hpe ▸ hs p hp
  constructor
  · rw [List.get?_eq_get hb.1]
    rfl
  · rw [List.get?_eq_get hb.2]
    rfl

/-- Claim C10 witness: a concrete fused run over a two-chunk corpus. -/
theorem claim10_witness :
    (Retriever.rrf_fuse [(0, 1)] [(1, 1)] 60).Nodup :=
  (claim10_fuse_indices_safe [(0, 1)] [(1, 1)] 60 ⟨["a", "b"], [ulMeta, emptyMeta]⟩
      (by decide) (by decide)).1

theorem posOf_not_mem (j : ℕ) {ks : List ℕ} (h : j ∉ ks) : posOf j ks = none := by
  induction ks with
  | nil => rfl
  | cons a l ih =>
    simp only [List.mem_cons, not_or] at h
    have ha : ¬ a = j := fun hh => h.1 hh.symm
    simp [posOf, ha, ih h.2]

theorem rrfContrib_not_mem (k r : ℕ) {ks : List ℕ} {j : ℕ} (h : j ∉ ks) :
    rrfContrib k r ks j = 0 := by
  simp [rrfContrib, posOf_not_mem j h]

theorem rrfContrib_head (k r x : ℕ) (ks : List ℕ) :
    rrfContrib k r (x :: ks) x = mkRat 1 (k + r) := by
  simp [rrfContrib, posOf]

theorem rrfContrib_shift (k r x : ℕ) {j : ℕ} (ks : List ℕ) (h : j ≠ x) :
    rrfContrib k r (x :: ks) j = rrfContrib k (r + 1) ks j := by
  have hx : ¬ x = j := fun hh => h hh.symm
  simp only [rrfContrib, posOf, if_neg hx]
  cases posOf j ks with
  | none => rfl
  | some t =>
    show mkRat 1 (k + r + (t + 1)) = mkRat 1 (k + (r + 1) + t)
    congr 1
    omega

theorem rrfInsert_not_mem (acc : List (ℕ × ℚ)) (x : ℕ) (c : ℚ)
    (h : x ∉ acc.map Prod.fst) :
    Retriever.rrfInsert acc x c = acc ++ [(x, c)] := by
  induction acc with
  | nil => rfl
  | cons p rest ih =>
    obtain ⟨j, v⟩ := p
    simp only [List.map_cons, List.mem_cons, not_or] at h
    have hj : ¬ j = x := fun hh => h.1 hh.symm
    simp [Retriever.rrfInsert, hj, ih h.2]

theorem rrfInsert_mem (acc : List (ℕ × ℚ)) (x : ℕ) (c : ℚ)
    (hnd : (acc.map Prod.fst).Nodup) (h : x ∈ acc.map Prod.fst) :
    Retriever.rrfInsert acc x c =
      acc.map (fun p => if p.1 = x then (p.1, qadd p.2 c) else p) := by
  induction acc with
  | nil => cases h
  | cons p rest ih =>
    obtain ⟨j, v⟩ := p
    simp only [List.map_cons, List.nodup_cons] at hnd
    by_cases hj : j = x
    · subst hj
      have hrest : ∀ p ∈ rest,
          (if (Prod.fst p) = j then (p.1, qadd p.2 c) else p) = id p := by
        intro p hp
        rw [if_neg, id]
        intro he
        exact hnd.1 (he ▸ List.mem_map_of_mem Prod.fst hp)
      simp only [Retriever.rrfInsert, List.map_cons, if_true]
      rw [List.map_congr_left hrest, List.map_id]
    · have hx : x ∈ rest.map Prod.fst := by
        rcases List.mem_cons.1 h with hh | hh
        · exact absurd hh.symm hj
        · exact hh
      simp only [Retriever.rrfInsert, if_neg hj, List.map_cons, if_neg hj]
      exact congrArg (List.cons (j, v)) (ih hnd.2 hx)

theorem firstKeysAux_nodup (l : List ℕ) (hl : l.Nodup) :
    ∀ seen, firstKeysAux seen l = l.filter (fun a => decide (a ∉ seen)) := by
  induction l with
  | nil => intro seen; rfl
  | cons a t ih =>
    intro seen
    simp only [List.nodup_cons] at hl
    by_cases ha : a ∈ seen
    · rw [show firstKeysAux seen (a :: t) = firstKeysAux seen t from by
        simp [firstKeysAux, ha]]
      rw [ih hl.2 seen, List.filter_cons]
      simp [ha]
    · rw [show firstKeysAux seen (a :: t) = a :: firstKeysAux (a :: seen) t from by
        simp [firstKeysAux, ha]]
      rw [ih hl.2 (a :: seen), List.filter_cons, if_pos (decide_eq_true ha)]
      congr 1
      apply List.filter_congr
      intro b hb
      have hba : ¬ b = a := fun hh => hl.1 (hh ▸ hb)
      simp [hba]

theorem firstKeysAux_append (d s : List ℕ) (hd : d.Nodup) (hs : s.Nodup) :
    ∀ seen, (∀ a ∈ d, a ∉ seen) →
      firstKeysAux seen (d ++ s) =
        d ++ s.filter (fun b => decide (¬ (b ∈ d ∨ b ∈ seen))) := by
  induction d with
  | nil =>
    intro seen _
    rw [List.nil_append, firstKeysAux_nodup s hs seen]
    apply List.filter_congr
    intro b _
    simp
  | cons a d ih =>
    intro seen hds
    simp only [List.nodup_cons] at hd
    have ha : a ∉ seen := hds a (by simp)
    rw [show firstKeysAux seen ((a :: d) ++ s) =
        a :: firstKeysAux (a :: seen) (d ++ s) from by
      simp [firstKeysAux, ha]]
    rw [ih hd.2 (a :: seen) ?_]
    · rw [List.cons_append]
      congr 2
      apply List.filter_congr
      intro b hb
      apply decide_eq_decide.2
      constructor
      · intro hc hc2
        apply hc
        rcases hc2 with h2 | h2
        · rcases List.mem_cons.1 h2 with h3 | h3
          · exact Or.inr (by simp [h3])
          · exact Or.inl h3
        · exact Or.inr (by simp [h2])
      · intro hc hc2
        apply hc
        rcases hc2 with h2 | h2
        · exact Or.inl (by simp [h2])
        · rcases List.mem_cons.1 h2 with h3 | h3
          · exact Or.inl (by simp [h3])
          · exact Or.inr h3
    · intro b hb
      simp only [List.mem_cons, not_or]
      exact ⟨fun hh => hd.1 (hh ▸ hb), hds b (List.mem_cons_of_mem a hb)⟩

theorem firstKeys_append (d s : List ℕ) (hd : d.Nodup) (hs : s.Nodup) :
    firstKeysAux [] (d ++ s) = d ++ s.filter (fun b => decide (b ∉ d)) := by
  rw [firstKeysAux_append d s hd hs [] (by simp)]
  congr 1
  apply List.filter_congr
  intro b _
  simp

/-- The accumulated `dict` of `_rrf_fuse` after one `enumerate` loop,
characterised: every existing entry gains the contribution of its key, and
the new keys are appended in list order with their contributions. -/
theorem rrfAdd_spec (k : ℕ) (l : List (ℕ × ℚ)) :
    ∀ (acc : List (ℕ × ℚ)) (r : ℕ),
      (l.map Prod.fst).Nodup → (acc.map Prod.fst).Nodup →
      Retriever.rrfAdd k r acc l =
        acc.map (fun p => (p.1, p.2 + rrfContrib k r (l.map Prod.fst) p.1)) ++
        ((l.map Prod.fst).filter (fun j => decide (j ∉ acc.map Prod.fst))).map
          (fun j => (j, rrfContrib k r (l.map Prod.fst) j)) := by
  induction l with
  | nil =>
    intro acc r _ _
    show acc = _
    simp [rrfContrib, posOf]
  | cons q rest ih =>
    obtain ⟨x, s⟩ := q
    intro acc r hl hacc
    simp only [List.map_cons, List.nodup_cons] at hl
    obtain ⟨hxr, hrest⟩ := hl
    show Retriever.rrfAdd k (r + 1)
      (Retriever.rrfInsert acc x (mkRat 1 (k + r))) rest = _
    simp only [List.map_cons]
    by_cases hx : x ∈ acc.map Prod.fst
    · rw [rrfInsert_mem acc x (mkRat 1 (k + r)) hacc hx]
      have hkeys : (acc.map
          (fun p => if p.1 = x then (p.1, qadd p.2 (mkRat 1 (k + r))) else p)).map
            Prod.fst = acc.map Prod.fst := by
        rw [List.map_map]
        apply List.map_congr_left
        intro p _
        by_cases hpx : p.1 = x
        · simp [Function.comp, hpx]
        · simp [Function.comp, hpx]
      rw [ih _ (r + 1) hrest (by rw [hkeys]; exact hacc)]
      rw [hkeys]
      congr 1
      · rw [List.map_map]
        apply List.map_congr_left
        intro p hp
        by_cases hpx : p.1 = x
        · simp only [Function.comp, if_pos hpx]
          rw [hpx, rrfContrib_not_mem k (r + 1) hxr, rrfContrib_head, qadd_eq,
            add_zero]
        · simp only [Function.comp, if_neg hpx]
          rw [rrfContrib_shift k r x (rest.map Prod.fst) hpx]
      · rw [List.filter_cons, if_neg (by simp [hx])]
        apply List.map_congr_left
        intro j hj
        have hjr : j ∈ rest.map Prod.fst := List.mem_of_mem_filter hj
        have hjx : j ≠ x := fun hh => hxr (hh ▸ hjr)
        rw [rrfContrib_shift k r x (rest.map Prod.fst) hjx]
    · rw [rrfInsert_not_mem acc x (mkRat 1 (k + r)) hx]
      have hkeys2 : ((acc ++ [(x, mkRat 1 (k + r))]).map Prod.fst) =
          acc.map Prod.fst ++ [x] := by
        simp
      rw [ih _ (r + 1) hrest
        (by rw [hkeys2]; simp [List.nodup_append, hacc, hx])]
      rw [hkeys2, List.map_append, List.map_singleton, List.append_assoc,
        List.singleton_append, List.filter_cons, if_pos (decide_eq_true hx),
        List.map_cons]
      congr 1
      · apply List.map_congr_left
        intro p hp
        have hpx : p.1 ≠ x := fun hh => hx (hh ▸ List.mem_map_of_mem Prod.fst hp)
        rw [rrfContrib_shift k r x (rest.map Prod.fst) hpx]
      · congr 1
        · show (x, mkRat 1 (k + r) + rrfContrib k (r + 1) (rest.map Prod.fst) x) =
            (x, rrfContrib k r (x :: rest.map Prod.fst) x)
          rw [rrfContrib_not_mem k (r + 1) hxr, add_zero, rrfContrib_head]
        · have hfil : (rest.map Prod.fst).filter
              (fun j => decide (j ∉ acc.map Prod.fst ++ [x])) =
              (rest.map Prod.fst).filter
                (fun j => decide (j ∉ acc.map Prod.fst)) := by
            apply List.filter_congr
            intro j hj
            have hjx : ¬ j = x := fun hh => hxr (hh ▸ hj)
            apply decide_eq_decide.2
            simp [List.mem_append, hjx]
          rw [hfil]
          apply List.map_congr_left
          intro j hj
          have hjr : j ∈ rest.map Prod.fst := List.mem_of_mem_filter hj
          have hjx : j ≠ x := fun hh => hxr (hh ▸ hjr)
          rw [rrfContrib_shift k r x (rest.map Prod.fst) hjx]

/-- Claim C2 counterexample: on `dense = [(5, 1)]`, `sparse = [(3, 1)]`
with the default `k_rrf = 60`, the source returns `[5, 3]` (both scores are
`1/60` — 0-based `enumerate` rank — and the tie keeps dict insertion
order), while the claim as stated (1-based rank, ties by chunk index)
demands `[3, 5]`. -/
theorem claim2_counterexample :
    Retriever.rrf_fuse [(5, 1)] [(3, 1)] 60 ≠
      rrf_fuse_claim [(5, 1)] [(3, 1)] 60 := by
  decide

/-- Claim C2 amended: each chunk index is scored by the sum, over the
lists in which it appears, of `1/(k_rrf + rank)` where `rank` is its
0-BASED position within that list, and the indices come back in
descending summed score with ties broken by FIRST-INSERTION order (dense
list first, then the sparse-only indices in sparse order) — i.e. a stable
descending sort of the first-appearance key list. -/
theorem claim2_rrf_fuse_amended (dense sparse : List (ℕ × ℚ)) (k : ℕ)
    (hd : (dense.map Prod.fst).Nodup) (hs : (sparse.map Prod.fst).Nodup) :
    Retriever.rrf_fuse dense sparse k = rrf_fuse_amended dense sparse k := by
  have hinner : Retriever.rrfAdd k 0 [] dense =
      (dense.map Prod.fst).map
        (fun j => (j, rrfContrib k 0 (dense.map Prod.fst) j)) := by
    rw [rrfAdd_spec k dense [] 0 hd (by simp)]
    simp
  have hkeys_inner : (Retriever.rrfAdd k 0 [] dense).map Prod.fst =
      dense.map Prod.fst := by
    rw [hinner, List.map_map]
    simp [Function.comp]
  have houter : Retriever.rrfAdd k 0 (Retriever.rrfAdd k 0 [] dense) sparse =
      (firstKeysAux [] (dense.map Prod.fst ++ sparse.map Prod.fst)).map
        (fun i => (i, qadd (rrfContrib k 0 (dense.map Prod.fst) i)
                        (rrfContrib k 0 (sparse.map Prod.fst) i))) := by
    rw [rrfAdd_spec k sparse _ 0 hs (by rw [hkeys_inner]; exact hd)]
    rw [firstKeys_append _ _ hd hs, List.map_append, hkeys_inner]
    congr 1
    · rw [hinner, List.map_map]
      apply List.map_congr_left
      intro j hj
      show (j, rrfContrib k 0 (dense.map Prod.fst) j +
            rrfContrib k 0 (sparse.map Prod.fst) j) =
          (j, qadd (rrfContrib k 0 (dense.map Prod.fst) j)
            (rrfContrib k 0 (sparse.map Prod.fst) j))
      rw [qadd_eq]
    · apply List.map_congr_left
      intro j hj
      have hjd : j ∉ dense.map Prod.fst := by
        have := List.of_mem_filter hj
        simpa using this
      show (j, rrfContrib k 0 (sparse.map Prod.fst) j) =
          (j, qadd (rrfContrib k 0 (dense.map Prod.fst) j)
            (rrfContrib k 0 (sparse.map Prod.fst) j))
      rw [qadd_eq, rrfContrib_not_mem k 0 hjd, zero_add]
  show (sortDesc (fun p => p.2)
      (Retriever.rrfAdd k 0 (Retriever.rrfAdd k 0 [] dense) sparse)).map
        Prod.fst = _
  rw [houter]
  rfl

/-- Claim C2 witness: a concrete overlapping pair of ranked lists. -/
theorem claim2_witness :
    Retriever.rrf_fuse [(5, 1), (2, 1)] [(3, 1), (5, 1)] 60 =
      rrf_fuse_amended [(5, 1), (2, 1)] [(3, 1), (5, 1)] 60 :=
  claim2_rrf_fuse_amended [(5, 1), (2, 1)] [(3, 1), (5, 1)] 60
    (by decide) (by decide)

end ULRag
